import Mathlib

/-!
Verification of the agent-manager terminal dashboard (r3ptar/scaffolding).

This file gives a shallow embedding of the data-refresh layer
(`src/tui/data/file_parser.py`), the status inference of the two parsing
entry points (`file_parser.FileParser._parse_handoff_file` and
`agent-manager.AgentStatus.from_handoff_file`), the list components and
layout manager (`src/tui/ui/components.py`), and the bounded write
operation (`src/tui/core/tui_engine.py  TUIEngine.safe_addstr`), and
proves or refutes the frozen claims about them.

Modelling conventions:
* Python `int` is embedded as `Int` (Python `//` on a positive divisor is
  Euclidean division, which is Lean's `/` on `Int`).
* Python dicts keyed by strings are embedded as insertion-ordered
  association lists `List (String × _)`; `dict` lookup is `List.lookup`.
* The regex field extractors of the parsers are embedded by structures
  holding the extraction results (the matched groups / section contents);
  the logic that combines those fields is translated line by line.
* File contents are abstracted by a digest oracle `FS` (`hashOf` models
  `FileParser._calculate_file_hash`, which returns `""` on an unreadable
  file, and `fileExists` models `os.path.exists`).
* Python strings used only as opaque tokens stay `String`; the text
  argument of `safe_addstr`, whose length arithmetic matters, is a
  `List Char`.
-/

/-- `file_parser.AgentInfo` (dataclass, with its field defaults). -/
structure AgentInfo where
  agent_id : String
  status : String := "unknown"
  confidence : String := "medium"
  current_task : String := "No active task"
  last_update : Option Int := none
  files_owned : List String := []
  blockers : List String := []
  handoff_file : Option String := none
  priority : String := "medium"
deriving DecidableEq

/-- `file_parser.ReviewItem` (dataclass, with its field defaults).
`timestamp` models the `datetime` set at construction time. -/
structure ReviewItem where
  agent_id : String
  description : String
  priority : String := "medium"
  timestamp : Int := 0
  confidence : String := "medium"
  item_type : String := "unknown"
  files : List String := []
  blockers : List String := []
  deadline : Option Int := none
deriving DecidableEq

/-- `file_parser.ProjectState`.  `sprint_agent_files` models the
`agent_files` entry of the untyped `sprint_info` dict (the only entry the
refresh pipeline reads back); `file_hashes` is the tracked digest map. -/
structure ProjectState where
  agents : List (String × AgentInfo)
  review_items : List ReviewItem
  last_refresh : Int
  sprint_agent_files : Option (List (String × List String))
  file_hashes : List (String × String)
deriving DecidableEq

/-- Digest oracle for the file system: `fileExists` models
`os.path.exists`, `hashOf` models `FileParser._calculate_file_hash`
(total; returns `""` when the file cannot be read). -/
structure FS where
  fileExists : String → Bool
  hashOf : String → String

/-- One discovered handoff file: its path together with the result of
`FileParser._parse_handoff_file` on it (`none` models a parse failure). -/
structure Handoff where
  path : String
  parsed : Option AgentInfo
deriving DecidableEq

/-- The inputs consumed by one re-scan of
`FileParser.parse_project_state`: the discovered handoff files in
discovery order (newest first), whether the review / sprint files exist,
and the parse results of those two files. -/
structure ScanInput where
  handoffs : List Handoff
  review_exists : Bool
  review_items : List ReviewItem
  sprint_exists : Bool
  sprint_agent_files : Option (List (String × List String))

/-- The mutable parser state: `FileParser.cached_data`. -/
structure ParserState where
  cached : Option ProjectState
deriving DecidableEq

/-- `FileParser.review_file`. -/
def review_file_path : String := "docs/sprints/human-review.md"

/-- `FileParser.sprint_file`. -/
def sprint_file_path : String := "docs/sprints/current-sprint.md"

/-- `FileParser._should_refresh_cache`, with the current time and the
file-system digest oracle passed explicitly.  The cache timeout is the
fixed 30-second `cache_timeout`. -/
def should_refresh_cache (st : ParserState) (fs : FS) (now : Int) : Bool :=
  match st.cached with
  | none => true
  | some cd =>
    if now - cd.last_refresh > 30 then true
    else cd.file_hashes.any fun ph => fs.fileExists ph.1 && (fs.hashOf ph.1 != ph.2)

/-- The handoff-file loop of `FileParser.parse_project_state`
(lines 466-473): walk the discovered files in order, keep the first
parsed record per `agent_id`, and record a digest for each kept file. -/
def scan_handoffs (fs : FS) (agents : List (String × AgentInfo))
    (hashes : List (String × String)) :
    List Handoff → List (String × AgentInfo) × List (String × String)
  | [] => (agents, hashes)
  | h :: rest =>
    match h.parsed with
    | some ai =>
      if (agents.lookup ai.agent_id).isNone then
        scan_handoffs fs (agents ++ [(ai.agent_id, ai)])
          (hashes ++ [(h.path, fs.hashOf h.path)]) rest
      else
        scan_handoffs fs agents hashes rest
    | none => scan_handoffs fs agents hashes rest

/-- The ownership-merge loop of `FileParser.parse_project_state`
(lines 486-498): a table id absent from the agent map synthesizes an idle
record; a table id present in the map overwrites only `files_owned`. -/
def merge_sprint_agents (agents : List (String × AgentInfo)) :
    List (String × List String) → List (String × AgentInfo)
  | [] => agents
  | (aid, files) :: rest =>
    if (agents.lookup aid).isNone then
      merge_sprint_agents
        (agents ++ [(aid,
          { agent_id := aid, status := "idle",
            current_task := "No recent activity", files_owned := files })])
        rest
    else
      merge_sprint_agents
        (agents.map fun p =>
          if p.1 = aid then (p.1, { p.2 with files_owned := files }) else p)
        rest

/-- The cache-miss body of `FileParser.parse_project_state`
(lines 456-506): build a fresh `ProjectState` (empty maps), run the
handoff loop, take the review items and digest when the review file
exists, take the sprint info and digest when the sprint file exists, and
merge the ownership table when present. -/
def rescan (fs : FS) (inp : ScanInput) (now : Int) : ProjectState :=
  let p := scan_handoffs fs [] [] inp.handoffs
  let review_items := if inp.review_exists then inp.review_items else []
  let hashes2 := if inp.review_exists then
      p.2 ++ [(review_file_path, fs.hashOf review_file_path)]
    else p.2
  let hashes3 := if inp.sprint_exists then
      hashes2 ++ [(sprint_file_path, fs.hashOf sprint_file_path)]
    else hashes2
  let sprint_af := if inp.sprint_exists then inp.sprint_agent_files else none
  let agents2 := if inp.sprint_exists then
      match inp.sprint_agent_files with
      | some table => merge_sprint_agents p.1 table
      | none => p.1
    else p.1
  { agents := agents2, review_items := review_items, last_refresh := now,
    sprint_agent_files := sprint_af, file_hashes := hashes3 }

/-- `FileParser.parse_project_state` (lines 437-506): on a cache hit
(`force` false and `_should_refresh_cache` false, which implies a cached
snapshot exists) return the cached snapshot with the state untouched;
otherwise re-scan and cache the result.  Returns the snapshot together
with the updated parser state. -/
def parse_project_state (st : ParserState) (fs : FS) (inp : ScanInput)
    (now : Int) (force : Bool) : ProjectState × ParserState :=
  match st.cached, force, should_refresh_cache st fs now with
  | some cd, false, false => (cd, st)
  | _, _, _ =>
    let ps := rescan fs inp now
    (ps, { cached := some ps })

/-- Specification of the digest entries produced by the handoff loop,
written as direct recursion over the discovered files with an explicit
list of already-seen agent ids: a digest is kept exactly for the files
that parse successfully to a not-yet-seen agent id. -/
def kept_handoff_hashes (fs : FS) (seen : List String) :
    List Handoff → List (String × String)
  | [] => []
  | h :: rest =>
    match h.parsed with
    | some ai =>
      if ai.agent_id ∈ seen then kept_handoff_hashes fs seen rest
      else (h.path, fs.hashOf h.path) :: kept_handoff_hashes fs (ai.agent_id :: seen) rest
    | none => kept_handoff_hashes fs seen rest

/-- The extraction results of the regex field matchers applied to one
handoff document's text: `priorityField` is the `\w+` group of the
`**Priority**:` matcher, `reasonField` the group of the
`**Handoff Reason**:` matcher (each `none` when the pattern is absent),
and `blockersSection` is `some` of the section's lines exactly when the
text contains the blockers section marker. -/
structure HandoffContent where
  priorityField : Option String
  reasonField : Option String
  blockersSection : Option (List String)
deriving DecidableEq

/-- Python `str.strip()` (drop leading and trailing whitespace),
implemented character-wise. -/
def strip_str (s : String) : String :=
  String.mk (((s.data.dropWhile Char.isWhitespace).reverse.dropWhile
    Char.isWhitespace).reverse)

/-- Python `str.startswith(c)` for a single-character pattern,
implemented character-wise. -/
def starts_with_char (s : String) (c : Char) : Bool :=
  match s.data with
  | [] => false
  | d :: _ => d == c

/-- Python `str.lower()`, implemented character-wise. -/
def str_lower (s : String) : String := String.mk (s.data.map Char.toLower)

/-- The bullet-line test of `FileParser._parse_handoff_file` line 231:
`line.strip() and line.strip().startswith(('-', '*'))`. -/
def bullet_entry (l : String) : Bool :=
  strip_str l != "" &&
    (starts_with_char (strip_str l) '-' || starts_with_char (strip_str l) '*')

/-- The bullet-line cleanup of `FileParser._parse_handoff_file` line 229:
`line.strip().lstrip('- ').strip()` (`lstrip('- ')` drops leading
characters from the set `{'-', ' '}`). -/
def strip_bullet (l : String) : String :=
  strip_str (String.mk ((strip_str l).data.dropWhile fun c => c == '-' || c == ' '))

/-- The status / blockers logic of `FileParser._parse_handoff_file`
(lines 214-234): the status starts as the `AgentInfo` default
`"unknown"`, the handoff-reason field (when present) maps to
blocked / completed / active, and a blockers section whose filtered
bullet list is non-empty overrides the status to `"blocked"`.
The priority field is never consulted. -/
def fp_status_blockers (c : HandoffContent) : String × List String :=
  let status0 := "unknown"
  let status1 :=
    match c.reasonField with
    | some r =>
      let reason := str_lower r
      if reason = "blocked" ∨ reason = "blocking" then "blocked"
      else if reason = "completed" ∨ reason = "done" ∨ reason = "finished" then "completed"
      else "active"
    | none => status0
  match c.blockersSection with
  | some lines =>
    let blockers := (lines.filter bullet_entry).map strip_bullet
    if blockers ≠ [] then ("blocked", blockers) else (status1, blockers)
  | none => (status1, [])

/-- The status logic of `agent-manager.AgentStatus.from_handoff_file`
(lines 53-62): the status starts `"unknown"`; a priority field maps
`critical` to `"blocked"` and anything else to `"active"`; the bare
presence of a blockers section then overrides the status to
`"blocked"`. -/
def am_status (c : HandoffContent) : String :=
  let status0 := "unknown"
  let status1 :=
    match c.priorityField with
    | some p => if str_lower p = "critical" then "blocked" else "active"
    | none => status0
  match c.blockersSection with
  | some _ => "blocked"
  | none => status1

/-- The data of one review entry before its priority is attached: the
regex groups and structured-field values extracted by
`FileParser._parse_review_section` for that entry. -/
structure RawReviewEntry where
  agent_id : String
  description : String
  timestamp : Int := 0
  confidence : String := "medium"
  item_type : String := "unknown"
  files : List String := []
  deadline : Option Int := none
deriving DecidableEq

/-- The item construction of `FileParser._parse_review_section`: a
`ReviewItem` tagged with the priority of the section the entry came
from (`blockers` is never populated by the review parser). -/
def mk_review_item (e : RawReviewEntry) (p : String) : ReviewItem :=
  { agent_id := e.agent_id, description := e.description, priority := p,
    timestamp := e.timestamp, confidence := e.confidence,
    item_type := e.item_type, files := e.files, deadline := e.deadline }

/-- A decision-queue document that contains the three priority section
markers in order, abstracted to the entries of each section. -/
structure ReviewDocSections where
  critical : List RawReviewEntry
  high : List RawReviewEntry
  medium : List RawReviewEntry
deriving DecidableEq

/-- The section loop of `FileParser._parse_review_file` (lines 262-280)
for a document containing all three section markers in order: the
`sections` dict is iterated in insertion order critical, high, medium,
and each section's parsed items are appended to the accumulated list. -/
def parse_review_doc (d : ReviewDocSections) : List ReviewItem :=
  let items0 : List ReviewItem := []
  let items1 := items0 ++ d.critical.map fun e => mk_review_item e "critical"
  let items2 := items1 ++ d.high.map fun e => mk_review_item e "high"
  let items3 := items2 ++ d.medium.map fun e => mk_review_item e "medium"
  items3

/-- `priority_order.get(x.priority, 3)` used by
`ReviewQueueComponent.set_review_items` (and the draw paths). -/
def priority_rank (p : String) : Nat :=
  if p = "critical" then 0 else if p = "high" then 1
  else if p = "medium" then 2 else 3

/-- The display order on review items induced by `priority_rank`. -/
def review_le (a b : ReviewItem) : Prop :=
  priority_rank a.priority ≤ priority_rank b.priority

instance : DecidableRel review_le := fun a b =>
  inferInstanceAs (Decidable (priority_rank a.priority ≤ priority_rank b.priority))

/-- The state shared by the two list components
(`AgentListComponent` over `AgentInfo`, `ReviewQueueComponent` over
`ReviewItem`): the held collection, the pane height, the scroll offset
and the selection index.  Both components' selection / scrolling code is
textually identical, so it is embedded once, generically. -/
structure ListComp (α : Type) where
  items : List α
  height : Int
  scroll_offset : Int
  selected_index : Int
deriving DecidableEq

/-- `AgentListComponent.move_selection` (lines 214-224) and the
identical `ReviewQueueComponent.move_selection` (lines 377-387): clamp
the new index into `[0, length-1]`, then shift the scroll offset by the
minimum amount that re-includes the index in the visible window of
`height - 2` rows. -/
def move_selection (c : ListComp α) (delta : Int) : ListComp α :=
  if c.items.isEmpty then c
  else
    let sel := max 0 (min ((c.items.length : Int) - 1) (c.selected_index + delta))
    let visible_height := c.height - 2
    if sel < c.scroll_offset then
      { c with selected_index := sel, scroll_offset := sel }
    else if sel ≥ c.scroll_offset + visible_height then
      { c with selected_index := sel, scroll_offset := sel - visible_height + 1 }
    else
      { c with selected_index := sel }

/-- `AgentListComponent.set_agents` (lines 203-206): replace the
collection and re-clamp only the selection index
(`min(self.selected_index, len(agents) - 1) if agents else 0`);
the scroll offset is not touched. -/
def set_agents (c : ListComp α) (new : List α) : ListComp α :=
  { c with items := new,
           selected_index :=
             if new.isEmpty then 0
             else min c.selected_index ((new.length : Int) - 1) }

/-- `ReviewQueueComponent.set_review_items` (lines 364-369): sort the
incoming items by priority rank (Python's `sorted` is a stable sort,
embedded as `List.insertionSort`), replace the collection, and re-clamp
only the selection index. -/
def set_review_items (c : ListComp ReviewItem) (items : List ReviewItem) :
    ListComp ReviewItem :=
  let sorted := List.insertionSort review_le items
  { c with items := sorted,
           selected_index :=
             if sorted.isEmpty then 0
             else min c.selected_index ((sorted.length : Int) - 1) }

/-- `AgentListComponent.get_selected_agent` (lines 208-212) and the
identical `ReviewQueueComponent.get_selected_item` (lines 371-375):
return the element at `selected_index` when `0 <= selected_index <
len(items)`, and `None` otherwise. -/
def get_selected_agent (c : ListComp α) : Option α :=
  if 0 ≤ c.selected_index ∧ c.selected_index < (c.items.length : Int) then
    c.items.get? c.selected_index.toNat
  else none

/-- The component state a list component is constructed with
(`UIComponent.__init__`): scroll offset and selection index zero, the
collection and pane height as given. -/
def init_list_comp (items : List α) (height : Int) : ListComp α :=
  { items := items, height := height, scroll_offset := 0, selected_index := 0 }

/-- The invariant the spec states for list components: the selection is
a valid index, the scroll offset is within `[0, max 0 (length - visible
height)]`, and the selection lies in the visible window. -/
def listInv (c : ListComp α) : Prop :=
  0 ≤ c.selected_index ∧ c.selected_index < (c.items.length : Int) ∧
  0 ≤ c.scroll_offset ∧
  c.scroll_offset ≤ max 0 ((c.items.length : Int) - (c.height - 2)) ∧
  c.scroll_offset ≤ c.selected_index ∧
  c.selected_index < c.scroll_offset + (c.height - 2)

instance (c : ListComp α) : Decidable (listInv c) := by
  unfold listInv; infer_instance

/-- A pane rectangle `(y, x, height, width)` as stored in
`Layout.pane_positions`. -/
structure Rect where
  y : Int
  x : Int
  h : Int
  w : Int
deriving DecidableEq

/-- `components.Layout` restricted to the four panes
`LayoutManager.calculate_layout` populates. -/
structure LayoutGeom where
  total_width : Int
  total_height : Int
  agents : Rect
  tasks : Rect
  review : Rect
  details : Rect
deriving DecidableEq

/-- `LayoutManager.calculate_layout` (lines 466-494): reserve 3-row
header and footer bands, give the top two thirds of the remaining height
to three side-by-side panes of width `terminal_width // 3` (remainder to
the rightmost), and the rest to a full-width details pane. -/
def calculate_layout (terminal_width terminal_height : Int) : LayoutGeom :=
  let header_height : Int := 3
  let footer_height : Int := 3
  let available_height := terminal_height - header_height - footer_height
  let available_width := terminal_width
  let top_pane_height := available_height * 2 / 3
  let details_height := available_height - top_pane_height
  let pane_width := available_width / 3
  { total_width := terminal_width, total_height := terminal_height,
    agents := ⟨header_height, 0, top_pane_height, pane_width⟩,
    tasks := ⟨header_height, pane_width, top_pane_height, pane_width⟩,
    review := ⟨header_height, pane_width * 2, top_pane_height,
               available_width - pane_width * 2⟩,
    details := ⟨header_height + top_pane_height, 0, details_height,
                available_width⟩ }

/-- Cell `(i, j)` lies inside rectangle `r`. -/
def in_rect (r : Rect) (i j : Int) : Prop :=
  r.y ≤ i ∧ i < r.y + r.h ∧ r.x ≤ j ∧ j < r.x + r.w

/-- The four pane rectangles of a layout, in registry order. -/
def layout_rects (L : LayoutGeom) : List Rect :=
  [L.agents, L.tasks, L.review, L.details]

/-- Two rectangles share no cell. -/
def rects_disjoint (r1 r2 : Rect) : Prop :=
  ∀ i j : Int, ¬(in_rect r1 i j ∧ in_rect r2 i j)

/-- The available width computed by `TUIEngine.safe_addstr`
(lines 307-309): the space up to the right edge, capped by `max_width`
when that argument is truthy (present and non-zero). -/
def avail_width (width x : Int) (max_width : Option Int) : Int :=
  match max_width with
  | some m => if m ≠ 0 then min (width - x) m else width - x
  | none => width - x

/-- The truncation applied by `TUIEngine.safe_addstr` (lines 311-312):
text longer than the available width is cut to `available_width - 1`
characters plus a trailing `…` (and to the empty text when no width is
available). -/
def attempted_text (width x : Int) (text : List Char)
    (max_width : Option Int) : List Char :=
  if (text.length : Int) > avail_width width x max_width then
    if avail_width width x max_width > 0 then
      text.take (avail_width width x max_width - 1).toNat ++ ['…']
    else []
  else text

/-- `TUIEngine.safe_addstr` (lines 294-323), for an initialized screen
of the given size: out-of-bounds coordinates return `false` without
attempting a write; otherwise the text is truncated to the available
width, replacing the overflow with a trailing `…`, and a non-empty
result is handed to the underlying `stdscr.addstr`.  That curses call
can itself fail even in bounds (painting the bottom-right cell, for
example, raises on the cursor advance), and the `except curses.error`
handler (lines 319-320) turns such a failure into `return False`; the
oracle `write_ok` models whether the underlying write succeeds.  The
second component of the result is the (truncated) text handed to the
underlying write. -/
def safe_addstr (height width : Int) (write_ok : Int → Int → List Char → Bool)
    (y x : Int) (text : List Char) (max_width : Option Int) :
    Bool × List Char :=
  if y < 0 ∨ y ≥ height then (false, [])
  else if x < 0 ∨ x ≥ width then (false, [])
  else
    let t := attempted_text width x text max_width
    if t.isEmpty then (true, t)
    else (write_ok y x t, t)

/-- A concrete cached snapshot used to exercise the cache-hit path. -/
def cdW : ProjectState :=
  { agents := [], review_items := [], last_refresh := 0,
    sprint_agent_files := none,
    file_hashes := [("handoff-1_1.md", "h1"), ("docs/sprints/human-review.md", "h2")] }

/-- A digest oracle that reports exactly the digests tracked in `cdW`. -/
def fsW : FS :=
  { fileExists := fun _ => true,
    hashOf := fun p => if p = "handoff-1_1.md" then "h1" else "h2" }

/-- A digest oracle with a single constant digest. -/
def fsC : FS := { fileExists := fun _ => true, hashOf := fun _ => "h" }

/-- An arbitrary concrete scan input (never scanned on the hit path). -/
def inpW : ScanInput :=
  { handoffs := [], review_exists := false, review_items := [],
    sprint_exists := false, sprint_agent_files := none }

/-- A parsed agent record for the duplicate-handoff counterexample. -/
def agA : AgentInfo := { agent_id := "handoff-1_1" }

/-- A scan input with two discovered handoff documents that parse to the
same agent id: the second is examined but its digest is never
recorded. -/
def inpDup : ScanInput :=
  { handoffs := [⟨"handoff-1_1.md", some agA⟩, ⟨"handoff-1_1-old.md", some agA⟩],
    review_exists := false, review_items := [],
    sprint_exists := false, sprint_agent_files := none }

/-- A list component holding 100 items, scrolled near the end; its state
is reachable (`init` followed by `move_selection` by `+99` then `-4`)
and satisfies the component invariant. -/
def cWide : ListComp Nat :=
  move_selection (move_selection (init_list_comp (List.replicate 100 0) 12) 99) (-4)

/-- A handoff document declaring `**Priority**: critical`, with no
handoff-reason field and no blockers section. -/
def docCritical : HandoffContent :=
  { priorityField := some "critical", reasonField := none, blockersSection := none }

/-- A handoff document with a blockers section holding one bullet entry
and a priority field of `low`. -/
def docBlocked : HandoffContent :=
  { priorityField := some "low", reasonField := some "completed",
    blockersSection := some ["- waiting on schema"] }

/-- A 100-character text for the overflow counterexample. -/
def longText : List Char := List.replicate 100 'a'

/-- A string key is absent from an association list iff its lookup is
`none`. -/
theorem lookup_none_iff {β : Type} (l : List (String × β)) (k : String) :
    (List.lookup k l).isNone ↔ k ∉ l.map Prod.fst := by
  rw [Option.isNone_iff_eq_none, List.lookup_eq_none_iff]
  simp only [List.mem_map, bne_iff_ne, ne_eq]
  constructor
  · intro h hc
    obtain ⟨p, hp, hk⟩ := hc
    exact h p hp hk.symm
  · intro h p hp hk
    exact h ⟨p, hp, hk.symm⟩

/-- A relation that holds universally is pairwise on every list. -/
theorem pairwise_of_total_const {α : Type} {R : α → α → Prop}
    (hr : ∀ a b, R a b) (l : List α) : l.Pairwise R := by
  induction l with
  | nil => exact List.Pairwise.nil
  | cons a t ih => exact List.Pairwise.cons (fun b _ => hr a b) ih

/-- C10: `get_selected_agent` / `get_selected_item` is total — it
returns `none` exactly when the collection is empty or the selection
index falls outside `[0, length-1]`, and otherwise returns precisely the
element at the selection index. -/
theorem c10_selected_entry_total {α : Type} (c : ListComp α) :
    (get_selected_agent c = none ↔
      c.selected_index < 0 ∨ (c.items.length : Int) ≤ c.selected_index) ∧
    (∀ (i : Nat) (h : i < c.items.length), c.selected_index = (i : Int) →
      get_selected_agent c = some (c.items.get ⟨i, h⟩)) := by
  unfold get_selected_agent
  by_cases hin : 0 ≤ c.selected_index ∧ c.selected_index < (c.items.length : Int)
  · obtain ⟨h0, h1⟩ := hin
    have hlt : c.selected_index.toNat < c.items.length := by omega
    constructor
    · rw [if_pos ⟨h0, h1⟩, List.get?_eq_get hlt]
      constructor
      · intro hsome
        simp at hsome
      · intro hor
        exfalso
        rcases hor with h | h <;> omega
    · intro i h hi
      have hti : c.selected_index.toNat = i := by omega
      rw [if_pos ⟨h0, h1⟩, hti, List.get?_eq_get h]
  · constructor
    · rw [if_neg hin]
      simp only [true_iff]
      omega
    · intro i h hi
      exfalso
      apply hin
      constructor <;> omega

/-- C10 witness: on a concrete two-element component with selection 1,
the selected entry is the second element. -/
theorem c10_witness :
    get_selected_agent (ListComp.mk ["a", "b"] 15 0 1) = some "b" :=
  (c10_selected_entry_total (ListComp.mk ["a", "b"] 15 0 1)).2 1 (by decide) rfl

/-- C9 counterexample: with a 24×80 terminal and an underlying curses
write that succeeds, an in-bounds call at (0, 0) with no maximum width
and a 100-character text overflows the grid, yet `safe_addstr` returns
`true` (after truncating) — the claim says such a call returns
`false`. -/
theorem c9_overflow_counterexample :
    (0 : Int) ≤ 0 ∧ (0 : Int) < 24 ∧ (0 : Int) < 80 ∧
    ((longText.length : Int) > 80 - 0) ∧
    (safe_addstr 24 80 (fun _ _ _ => true) 0 0 longText none).1 = true := by
  refine ⟨by decide, by decide, by decide, by decide, ?_⟩
  decide

/-- C9 (amended): `safe_addstr` is total (embedded as a Lean function,
so it never raises), for every maximum-width argument and every
behaviour of the underlying curses write.  An out-of-bounds row or
column returns `false` with no write attempted.  An in-bounds call
truncates text longer than the available width — `width - x`, capped
by the maximum width whenever one is supplied and non-zero — replacing
the overflow with a trailing `…` so the attempted text fits exactly
that width (empty when the available width is not positive); the
returned flag is then the success of the underlying curses write on
the non-empty attempted text (so overflow by itself never causes a
`false` return, but an in-bounds write the terminal rejects, such as
the bottom-right cell, does), and `true` outright when there is
nothing to write. -/
theorem c9_safe_addstr_amended (height width y x : Int) (text : List Char)
    (mw : Option Int) (wok : Int → Int → List Char → Bool)
    (hy : 0 ≤ y ∧ y < height) (hx : 0 ≤ x ∧ x < width) :
    (∀ y' x' : Int, (y' < 0 ∨ height ≤ y' ∨ x' < 0 ∨ width ≤ x') →
      safe_addstr height width wok y' x' text mw = (false, [])) ∧
    ((text.length : Int) ≤ avail_width width x mw →
      (safe_addstr height width wok y x text mw).2 = text) ∧
    ((text.length : Int) > avail_width width x mw →
      0 < avail_width width x mw →
      (safe_addstr height width wok y x text mw).2
        = text.take (avail_width width x mw - 1).toNat ++ ['…'] ∧
      ((safe_addstr height width wok y x text mw).2.length : Int)
        = avail_width width x mw) ∧
    ((text.length : Int) > avail_width width x mw →
      avail_width width x mw ≤ 0 →
      (safe_addstr height width wok y x text mw).2 = []) ∧
    ((safe_addstr height width wok y x text mw).2 ≠ [] →
      (safe_addstr height width wok y x text mw).1
        = wok y x (safe_addstr height width wok y x text mw).2) ∧
    ((safe_addstr height width wok y x text mw).2 = [] →
      (safe_addstr height width wok y x text mw).1 = true) := by
  obtain ⟨hy0, hy1⟩ := hy
  obtain ⟨hx0, hx1⟩ := hx
  have hyf : ¬(y < 0 ∨ y ≥ height) := by omega
  have hxf : ¬(x < 0 ∨ x ≥ width) := by omega
  have hout : ∀ y' x' : Int, (y' < 0 ∨ height ≤ y' ∨ x' < 0 ∨ width ≤ x') →
      safe_addstr height width wok y' x' text mw = (false, []) := by
    intro y' x' hor
    unfold safe_addstr
    by_cases hy' : y' < 0 ∨ y' ≥ height
    · rw [if_pos hy']
    · rw [if_neg hy', if_pos (by omega)]
  have hin : safe_addstr height width wok y x text mw
      = if (attempted_text width x text mw).isEmpty then
          (true, attempted_text width x text mw)
        else (wok y x (attempted_text width x text mw),
              attempted_text width x text mw) := by
    unfold safe_addstr
    rw [if_neg hyf, if_neg hxf]
  have hsnd : (safe_addstr height width wok y x text mw).2
      = attempted_text width x text mw := by
    rw [hin]
    split <;> rfl
  refine ⟨hout, ?_, ?_, ?_, ?_, ?_⟩
  · intro hle
    rw [hsnd]
    unfold attempted_text
    rw [if_neg (by omega)]
  · intro hov hpos
    have hatt : attempted_text width x text mw
        = text.take (avail_width width x mw - 1).toNat ++ ['…'] := by
      unfold attempted_text
      rw [if_pos hov, if_pos hpos]
    refine ⟨by rw [hsnd, hatt], ?_⟩
    rw [hsnd, hatt]
    simp only [List.length_append, List.length_take, List.length_cons,
      List.length_nil]
    omega
  · intro hov hnp
    rw [hsnd]
    unfold attempted_text
    rw [if_pos hov, if_neg (by omega)]
  · intro hne
    rw [hsnd] at hne
    have hie : (attempted_text width x text mw).isEmpty = false := by
      rcases hbe : (attempted_text width x text mw).isEmpty
      · rfl
      · exact absurd (List.isEmpty_iff.mp hbe) hne
    rw [hsnd, hin, hie]
    simp
  · intro hemp
    rw [hsnd] at hemp
    have hie : (attempted_text width x text mw).isEmpty = true := by
      rw [hemp]
      rfl
    rw [hin, hie]
    simp

/-- C9 amended witness: an in-bounds call with max width 10, a
15-character text and a succeeding underlying write truncates to 9
characters plus the ellipsis and returns `true`; an in-bounds
one-character call at the bottom-right cell whose underlying curses
write fails returns `false`. -/
theorem c9_safe_addstr_witness :
    (safe_addstr 24 80 (fun _ _ _ => true) 2 3 (List.replicate 15 'z')
        (some 10)).2 = List.replicate 9 'z' ++ ['…'] ∧
    (safe_addstr 24 80 (fun _ _ _ => true) 2 3 (List.replicate 15 'z')
        (some 10)).1 = true ∧
    (safe_addstr 24 80 (fun _ _ _ => false) 23 79 ['a'] none).1 = false := by
  refine ⟨?_, ?_, ?_⟩
  · exact ((c9_safe_addstr_amended 24 80 2 3 (List.replicate 15 'z')
      (some 10) (fun _ _ _ => true) (by decide) (by decide)).2.2.1
      (by decide) (by decide)).1
  · rw [(c9_safe_addstr_amended 24 80 2 3 (List.replicate 15 'z')
      (some 10) (fun _ _ _ => true) (by decide) (by decide)).2.2.2.2.1
      (by decide)]
  · rw [(c9_safe_addstr_amended 24 80 23 79 ['a'] none
      (fun _ _ _ => false) (by decide) (by decide)).2.2.2.2.1
      (by decide)]

/-- C1 counterexample: a status document declaring `**Priority**:
critical` with no blockers section yields status `"unknown"` from
`FileParser._parse_handoff_file` (the priority never feeds the status
there) and status `"blocked"` from `AgentStatus.from_handoff_file`
(critical priority forces blocked there) — neither path yields the
claimed `"active"`. -/
theorem c1_priority_counterexample :
    docCritical.priorityField = some "critical" ∧
    docCritical.blockersSection = none ∧
    (fp_status_blockers docCritical).1 = "unknown" ∧
    am_status docCritical = "blocked" := by
  refine ⟨rfl, rfl, rfl, ?_⟩
  decide

/-- C1 (amended): a blockers section with at least one bullet entry
forces status `"blocked"` in `_parse_handoff_file`, and the bare
presence of a blockers section forces `"blocked"` in
`from_handoff_file`, in both cases regardless of the priority field;
the priority field never influences `_parse_handoff_file`'s status,
while in `from_handoff_file` a priority field alone sets the status to
`"blocked"` exactly when its value lowercases to `critical`, and to
`"active"` otherwise. -/
theorem c1_status_amended (c : HandoffContent) :
    (∀ lines, c.blockersSection = some lines →
      lines.filter bullet_entry ≠ [] → (fp_status_blockers c).1 = "blocked") ∧
    (∀ lines, c.blockersSection = some lines → am_status c = "blocked") ∧
    (fp_status_blockers c).1 =
      (fp_status_blockers { c with priorityField := none }).1 ∧
    (c.blockersSection = none → ∀ p, c.priorityField = some p →
      am_status c = if str_lower p = "critical" then "blocked" else "active") := by
  obtain ⟨pf, rf, bs⟩ := c
  refine ⟨?_, ?_, ?_, ?_⟩
  · intro lines hbs hne
    simp only at hbs
    subst hbs
    unfold fp_status_blockers
    simp only
    rw [if_pos]
    intro hmap
    exact hne (List.map_eq_nil_iff.mp hmap)
  · intro lines hbs
    simp only at hbs
    subst hbs
    rfl
  · rfl
  · intro hbs p hpf
    simp only at hbs hpf
    subst hbs
    subst hpf
    rfl

/-- C1 amended witness: a concrete document with one bullet blocker, a
`completed` handoff reason and priority `low` is `"blocked"` on both
parsing paths. -/
theorem c1_status_witness :
    (fp_status_blockers docBlocked).1 = "blocked" ∧
    am_status docBlocked = "blocked" :=
  ⟨(c1_status_amended docBlocked).1 ["- waiting on schema"] rfl (by decide),
   (c1_status_amended docBlocked).2.1 ["- waiting on schema"] rfl⟩

/-- `move_selection` preserves the list-component invariant. -/
theorem listInv_move {α : Type} (c : ListComp α) (delta : Int)
    (h : listInv c) : listInv (move_selection c delta) := by
  obtain ⟨h1, h2, h3, h4, h5, h6⟩ := h
  have hne : c.items.isEmpty = false := by
    rcases he : c.items with _ | _
    · rw [he] at h2; simp at h2; omega
    · rfl
  unfold move_selection
  rw [hne]
  simp only [Bool.false_eq_true, if_false]
  unfold listInv at *
  split_ifs with hc1 hc2 <;>
    simp only at * <;>
    rw [max_def, min_def] at * <;>
    split_ifs at * <;>
    omega

/-- The invariant holds after any sequence of `move_selection` steps
from an invariant state. -/
theorem listInv_foldl {α : Type} (deltas : List Int) :
    ∀ c : ListComp α, listInv c → listInv (deltas.foldl move_selection c) := by
  induction deltas with
  | nil => intro c h; exact h
  | cons d rest ih =>
    intro c h
    exact ih (move_selection c d) (listInv_move c d h)

/-- C6: starting from a freshly constructed list component over a
non-empty collection (with the pane height of at least 3 rows that
`set_dimensions` guarantees via `min_height`), every finite sequence of
`move_selection` calls keeps the selection inside `[0, length-1]`, the
scroll offset inside `[0, max 0 (length - visibleHeight)]`, and the
selection inside the visible window. -/
theorem c6_move_selection_invariant {α : Type} (items : List α)
    (height : Int) (deltas : List Int)
    (hne : items ≠ []) (hh : 3 ≤ height) :
    listInv (deltas.foldl move_selection (init_list_comp items height)) := by
  apply listInv_foldl
  unfold listInv init_list_comp
  have hlen : 0 < items.length := List.length_pos.mpr hne
  simp only
  refine ⟨le_refl 0, by omega, le_refl 0, le_max_left 0 _, le_refl 0, by omega⟩

/-- C6 witness: a concrete three-element component of height 15 keeps
the invariant through the delta sequence `[5, -9, 2]`. -/
theorem c6_move_selection_witness :
    ([0, 1, 2] : List Nat) ≠ [] ∧ (3 : Int) ≤ 15 ∧
    listInv (([5, -9, 2] : List Int).foldl move_selection
      (init_list_comp ([0, 1, 2] : List Nat) 15)) :=
  ⟨by decide, by decide,
   c6_move_selection_invariant [0, 1, 2] 15 [5, -9, 2] (by decide) (by decide)⟩

set_option maxRecDepth 4000 in
/-- C7 counterexample: `cWide` is a reachable list-component state
(two `move_selection` calls from a fresh 100-item component) satisfying
the invariant; replacing its content with a 5-item collection via
`set_agents` leaves `scroll_offset` at 90, violating the claimed bound
`scrollOffset ≤ max 0 (contentLength - visibleHeight) = 0`. -/
theorem c7_counterexample :
    listInv cWide ∧
    ¬ ((set_agents cWide (List.replicate 5 0)).scroll_offset ≤
        max 0 (((set_agents cWide (List.replicate 5 0)).items.length : Int) -
               ((set_agents cWide (List.replicate 5 0)).height - 2))) := by
  constructor
  · decide
  · decide

/-- C7 (amended): `move_selection` preserves the full invariant, but a
content replacement (`set_agents` / `set_review_items`) only re-clamps
the selection index — into `[0, max 0 (length-1)]` provided it was
non-negative, and to `0` when the new content is empty — and leaves the
scroll offset untouched, so the scroll-offset bound is not
re-established by content replacement. -/
theorem c7_content_replacement_amended {α : Type} (c : ListComp α)
    (new : List α) (cr : ListComp ReviewItem) (items : List ReviewItem)
    (h0 : 0 ≤ c.selected_index) (h0r : 0 ≤ cr.selected_index) :
    (∀ d : ListComp α, listInv d → ∀ delta, listInv (move_selection d delta)) ∧
    (0 ≤ (set_agents c new).selected_index ∧
      (set_agents c new).selected_index ≤ max 0 ((new.length : Int) - 1) ∧
      (set_agents c new).scroll_offset = c.scroll_offset) ∧
    (0 ≤ (set_review_items cr items).selected_index ∧
      (set_review_items cr items).selected_index ≤ max 0 ((items.length : Int) - 1) ∧
      (set_review_items cr items).scroll_offset = cr.scroll_offset) := by
  refine ⟨fun d hd delta => listInv_move d delta hd, ?_, ?_⟩
  · unfold set_agents
    rcases hn : new with _ | ⟨a, t⟩
    · simp
    · simp only [List.isEmpty_cons, Bool.false_eq_true, if_false]
      have hlen : 0 < (a :: t).length := by simp
      rw [min_def, max_def]
      constructor
      · split_ifs <;> omega
      · split_ifs <;> simp_all
  · unfold set_review_items
    simp only
    rw [List.length_insertionSort]
    rcases hn : List.insertionSort review_le items with _ | ⟨a, t⟩
    · have : items.length = 0 := by
        rw [← List.length_insertionSort review_le items, hn]
        rfl
      simp [hn, this]
    · have hlen : 0 < items.length := by
        rw [← List.length_insertionSort review_le items, hn]
        simp
      simp only [hn, List.isEmpty_cons, Bool.false_eq_true, if_false]
      rw [min_def, max_def]
      constructor
      · split_ifs <;> omega
      · split_ifs <;> simp_all

/-- C7 amended witness: replacing the 100-item content of `cWide` with
five items clamps the selection from 95 to 4 and leaves the scroll
offset at 90. -/
theorem c7_content_replacement_witness :
    0 ≤ (set_agents cWide (List.replicate 5 (0 : Nat))).selected_index ∧
    (set_agents cWide (List.replicate 5 (0 : Nat))).selected_index ≤
      max 0 (((List.replicate 5 (0 : Nat)).length : Int) - 1) ∧
    (set_agents cWide (List.replicate 5 (0 : Nat))).scroll_offset =
      cWide.scroll_offset :=
  (c7_content_replacement_amended cWide (List.replicate 5 (0 : Nat))
    (ListComp.mk [] 15 0 0) [] (by decide) (by decide)).2.1

/-- C8: for every terminal size at or above the 20×5 minimum, the four
pane rectangles computed by `calculate_layout` are jointly contained in
the terminal bounds and pairwise non-overlapping, and the computation is
idempotent — it is a pure function of the dimensions, so two calls with
the same width and height yield identical geometries. -/
theorem c8_layout_disjoint_contained (w h : Int) (hw : 20 ≤ w) (_hh : 5 ≤ h) :
    (∀ i j : Int,
      (in_rect (calculate_layout w h).agents i j ∨
       in_rect (calculate_layout w h).tasks i j ∨
       in_rect (calculate_layout w h).review i j ∨
       in_rect (calculate_layout w h).details i j) →
      0 ≤ i ∧ i < h ∧ 0 ≤ j ∧ j < w) ∧
    (rects_disjoint (calculate_layout w h).agents (calculate_layout w h).tasks ∧
     rects_disjoint (calculate_layout w h).agents (calculate_layout w h).review ∧
     rects_disjoint (calculate_layout w h).agents (calculate_layout w h).details ∧
     rects_disjoint (calculate_layout w h).tasks (calculate_layout w h).review ∧
     rects_disjoint (calculate_layout w h).tasks (calculate_layout w h).details ∧
     rects_disjoint (calculate_layout w h).review (calculate_layout w h).details) ∧
    calculate_layout w h = calculate_layout w h := by
  have hdiv1 := Int.ediv_add_emod ((h - 3 - 3) * 2) 3
  have hmod1a := Int.emod_nonneg ((h - 3 - 3) * 2) (by norm_num : (3 : Int) ≠ 0)
  have hmod1b := Int.emod_lt_of_pos ((h - 3 - 3) * 2) (by norm_num : (0 : Int) < 3)
  have hdiv2 := Int.ediv_add_emod w 3
  have hmod2a := Int.emod_nonneg w (by norm_num : (3 : Int) ≠ 0)
  have hmod2b := Int.emod_lt_of_pos w (by norm_num : (0 : Int) < 3)
  unfold calculate_layout rects_disjoint in_rect
  simp only
  refine ⟨?_, ⟨?_, ?_, ?_, ?_, ?_, ?_⟩, by trivial⟩
  · rintro i j (⟨a1, a2, a3, a4⟩ | ⟨a1, a2, a3, a4⟩ | ⟨a1, a2, a3, a4⟩ | ⟨a1, a2, a3, a4⟩) <;>
      refine ⟨by omega, by omega, by omega, by omega⟩
  all_goals rintro i j ⟨⟨b1, b2, b3, b4⟩, c1, c2, c3, c4⟩
  all_goals omega

/-- C8 witness: the guarantees instantiated at the common 80×24
terminal size. -/
theorem c8_layout_witness :
    (20 : Int) ≤ 80 ∧ (5 : Int) ≤ 24 ∧
    ((∀ i j : Int,
        (in_rect (calculate_layout 80 24).agents i j ∨
         in_rect (calculate_layout 80 24).tasks i j ∨
         in_rect (calculate_layout 80 24).review i j ∨
         in_rect (calculate_layout 80 24).details i j) →
        0 ≤ i ∧ i < 24 ∧ 0 ≤ j ∧ j < 80) ∧
      (rects_disjoint (calculate_layout 80 24).agents (calculate_layout 80 24).tasks ∧
       rects_disjoint (calculate_layout 80 24).agents (calculate_layout 80 24).review ∧
       rects_disjoint (calculate_layout 80 24).agents (calculate_layout 80 24).details ∧
       rects_disjoint (calculate_layout 80 24).tasks (calculate_layout 80 24).review ∧
       rects_disjoint (calculate_layout 80 24).tasks (calculate_layout 80 24).details ∧
       rects_disjoint (calculate_layout 80 24).review (calculate_layout 80 24).details) ∧
      calculate_layout 80 24 = calculate_layout 80 24) :=
  ⟨by decide, by decide,
   c8_layout_disjoint_contained 80 24 (by decide) (by decide)⟩


/-- On a cached state within the freshness window whose tracked digests
all still match, `_should_refresh_cache` reports no refresh. -/
theorem should_refresh_cache_false (st : ParserState) (fs : FS) (now : Int)
    (cd : ProjectState) (hc : st.cached = some cd)
    (hfresh : now - cd.last_refresh ≤ 30)
    (hdig : ∀ p hsh, (p, hsh) ∈ cd.file_hashes →
      fs.fileExists p = true → fs.hashOf p = hsh) :
    should_refresh_cache st fs now = false := by
  simp only [should_refresh_cache, hc]
  rw [if_neg (by omega)]
  rw [List.any_eq_false]
  rintro ⟨p, hsh⟩ hmem
  simp only [Bool.and_eq_true, bne_iff_ne, ne_eq, not_and]
  intro hex
  rw [hdig p hsh hmem hex]
  simp

/-- C2: two `refresh(force=false)` calls inside the 30-second freshness
window, with every tracked file's digest unchanged at both calls, are
cache hits: each returns the cached snapshot (same agents, decision
items and digest map) and leaves the parser state untouched, so the
second call returns a snapshot identical to the first. -/
theorem c2_refresh_idempotent (st : ParserState) (fs1 fs2 : FS)
    (inp1 inp2 : ScanInput) (now1 now2 : Int) (cd : ProjectState)
    (hc : st.cached = some cd)
    (h1 : now1 - cd.last_refresh ≤ 30) (h2 : now2 - cd.last_refresh ≤ 30)
    (hd1 : ∀ p hsh, (p, hsh) ∈ cd.file_hashes →
      fs1.fileExists p = true → fs1.hashOf p = hsh)
    (hd2 : ∀ p hsh, (p, hsh) ∈ cd.file_hashes →
      fs2.fileExists p = true → fs2.hashOf p = hsh) :
    parse_project_state st fs1 inp1 now1 false = (cd, st) ∧
    parse_project_state ((parse_project_state st fs1 inp1 now1 false).2)
      fs2 inp2 now2 false = (cd, st) := by
  have hr1 : should_refresh_cache st fs1 now1 = false :=
    should_refresh_cache_false st fs1 now1 cd hc h1 hd1
  have hr2 : should_refresh_cache st fs2 now2 = false :=
    should_refresh_cache_false st fs2 now2 cd hc h2 hd2
  have hfirst : parse_project_state st fs1 inp1 now1 false = (cd, st) := by
    unfold parse_project_state
    rw [hr1, hc]
  refine ⟨hfirst, ?_⟩
  rw [hfirst]
  unfold parse_project_state
  rw [hr2, hc]

/-- C2 witness: a concrete cached snapshot with two tracked digests, a
file system still reporting those digests, and calls at 10s and 20s
after the refresh both return the cached snapshot unchanged. -/
theorem c2_refresh_witness :
    parse_project_state (ParserState.mk (some cdW)) fsW inpW 10 false
      = (cdW, ParserState.mk (some cdW)) ∧
    parse_project_state
      ((parse_project_state (ParserState.mk (some cdW)) fsW inpW 10 false).2)
      fsW inpW 20 false = (cdW, ParserState.mk (some cdW)) :=
  c2_refresh_idempotent (ParserState.mk (some cdW)) fsW fsW inpW inpW 10 20 cdW
    rfl (by decide) (by decide)
    (by
      intro p hsh hmem hex
      simp only [cdW, List.mem_cons, List.mem_singleton, Prod.mk.injEq,
        List.not_mem_nil, or_false] at hmem
      rcases hmem with ⟨rfl, rfl⟩ | ⟨rfl, rfl⟩ <;> rfl)
    (by
      intro p hsh hmem hex
      simp only [cdW, List.mem_cons, List.mem_singleton, Prod.mk.injEq,
        List.not_mem_nil, or_false] at hmem
      rcases hmem with ⟨rfl, rfl⟩ | ⟨rfl, rfl⟩ <;> rfl)

/-- Every item built from a section's entries carries that section's
priority, so a block of same-priority items is sorted. -/
theorem sorted_mk_block (l : List RawReviewEntry) (p : String) :
    List.Sorted review_le (l.map fun e => mk_review_item e p) := by
  rw [List.Sorted, List.pairwise_map]
  apply pairwise_of_total_const
  intro a b
  unfold review_le mk_review_item
  simp

/-- The concatenation of the critical, high and medium blocks is sorted
for the display order. -/
theorem sorted_parse_review_doc (d : ReviewDocSections) :
    List.Sorted review_le (parse_review_doc d) := by
  unfold parse_review_doc
  simp only [List.nil_append]
  rw [List.Sorted, List.pairwise_append]
  refine ⟨?_, ?_, ?_⟩
  · rw [List.pairwise_append]
    refine ⟨sorted_mk_block d.critical "critical",
      sorted_mk_block d.high "high", ?_⟩
    intro a ha b hb
    obtain ⟨ea, _, rfl⟩ := List.mem_map.mp ha
    obtain ⟨eb, _, rfl⟩ := List.mem_map.mp hb
    unfold review_le mk_review_item priority_rank
    simp
  · exact sorted_mk_block d.medium "medium"
  · intro a ha b hb
    obtain ⟨eb, _, rfl⟩ := List.mem_map.mp hb
    rcases List.mem_append.mp ha with hac | hah
    · obtain ⟨ea, _, rfl⟩ := List.mem_map.mp hac
      unfold review_le mk_review_item priority_rank
      simp
    · obtain ⟨ea, _, rfl⟩ := List.mem_map.mp hah
      unfold review_le mk_review_item priority_rank
      simp

/-- C4: parsing a decision-queue document holding the three priority
sections in order with N, M and K entries yields exactly N+M+K items,
laid out as the critical block, then the high block, then the medium
block, each item tagged with its originating section's priority; and
pushing those items through `set_review_items` (the display path)
leaves the order unchanged — the display list is all critical items,
then all high, then all medium. -/
theorem c4_review_sections (d : ReviewDocSections) (c : ListComp ReviewItem) :
    (parse_review_doc d).length =
      d.critical.length + d.high.length + d.medium.length ∧
    parse_review_doc d =
      (d.critical.map fun e => mk_review_item e "critical") ++
      (d.high.map fun e => mk_review_item e "high") ++
      (d.medium.map fun e => mk_review_item e "medium") ∧
    (∀ it ∈ parse_review_doc d, it.priority = "critical" ∨
      it.priority = "high" ∨ it.priority = "medium") ∧
    (set_review_items c (parse_review_doc d)).items = parse_review_doc d := by
  refine ⟨?_, ?_, ?_, ?_⟩
  · unfold parse_review_doc
    simp [Nat.add_assoc]
  · unfold parse_review_doc
    simp
  · intro it hit
    unfold parse_review_doc at hit
    simp only [List.nil_append, List.mem_append, List.mem_map] at hit
    rcases hit with (⟨e, _, rfl⟩ | ⟨e, _, rfl⟩) | ⟨e, _, rfl⟩ <;>
      simp [mk_review_item]
  · unfold set_review_items
    simp only
    rw [(sorted_parse_review_doc d).insertionSort_eq]

/-- C4 witness: a document with one entry per section yields three
items and the display path leaves them in section order. -/
theorem c4_review_witness :
    (parse_review_doc
      { critical := [{ agent_id := "a1", description := "d1" }],
        high := [{ agent_id := "a2", description := "d2" }],
        medium := [{ agent_id := "a3", description := "d3" }] }).length
      = 1 + 1 + 1 ∧
    (set_review_items (ListComp.mk [] 15 0 0)
      (parse_review_doc
        { critical := [{ agent_id := "a1", description := "d1" }],
          high := [{ agent_id := "a2", description := "d2" }],
          medium := [{ agent_id := "a3", description := "d3" }] })).items
      = parse_review_doc
        { critical := [{ agent_id := "a1", description := "d1" }],
          high := [{ agent_id := "a2", description := "d2" }],
          medium := [{ agent_id := "a3", description := "d3" }] } :=
  ⟨(c4_review_sections
      { critical := [{ agent_id := "a1", description := "d1" }],
        high := [{ agent_id := "a2", description := "d2" }],
        medium := [{ agent_id := "a3", description := "d3" }] }
      (ListComp.mk [] 15 0 0)).1,
   (c4_review_sections
      { critical := [{ agent_id := "a1", description := "d1" }],
        high := [{ agent_id := "a2", description := "d2" }],
        medium := [{ agent_id := "a3", description := "d3" }] }
      (ListComp.mk [] 15 0 0)).2.2.2⟩

/-- The digest list accumulated by the handoff loop is the input list
plus exactly the digests of the files kept by the seen-set discipline. -/
theorem scan_handoffs_hashes (fs : FS) (l : List Handoff) :
    ∀ (agents : List (String × AgentInfo)) (hashes : List (String × String))
      (seen : List String),
      (∀ a : String, a ∈ seen ↔ a ∈ agents.map Prod.fst) →
      (scan_handoffs fs agents hashes l).2
        = hashes ++ kept_handoff_hashes fs seen l := by
  induction l with
  | nil =>
    intro agents hashes seen _
    simp [scan_handoffs, kept_handoff_hashes]
  | cons h rest ih =>
    intro agents hashes seen hseen
    rcases hp : h.parsed with _ | ai
    · simp only [scan_handoffs, hp]
      rw [ih agents hashes seen hseen]
      simp [kept_handoff_hashes, hp]
    · simp only [scan_handoffs, hp]
      by_cases hmem : ai.agent_id ∈ seen
      · have hlook : (agents.lookup ai.agent_id).isNone = false := by
          rw [Bool.eq_false_iff]
          intro hnone
          exact ((lookup_none_iff agents ai.agent_id).mp hnone)
            ((hseen ai.agent_id).mp hmem)
        rw [if_neg (by simp [hlook])]
        rw [ih agents hashes seen hseen]
        simp [kept_handoff_hashes, hp, hmem]
      · have hlook : (agents.lookup ai.agent_id).isNone = true := by
          rw [lookup_none_iff]
          intro hin
          exact hmem ((hseen ai.agent_id).mpr hin)
        rw [if_pos (by simp [hlook])]
        rw [ih (agents ++ [(ai.agent_id, ai)])
          (hashes ++ [(h.path, fs.hashOf h.path)]) (ai.agent_id :: seen)
          (by
            intro a
            simp only [List.mem_cons, List.map_append, List.mem_append,
              List.map_cons, List.map_nil, List.mem_singleton]
            rw [hseen a]
            tauto)]
        simp [kept_handoff_hashes, hp, hmem]

/-- C3 counterexample: a re-scan that discovers two status documents
parsing to the same agent id records no digest for the second
(duplicate) document, although it was examined — so the digest map does
not cover every discovered status document. -/
theorem c3_duplicate_counterexample :
    inpDup.handoffs.map Handoff.path = ["handoff-1_1.md", "handoff-1_1-old.md"] ∧
    inpDup.handoffs.map Handoff.parsed = [some agA, some agA] ∧
    (rescan fsC inpDup 0).file_hashes.lookup "handoff-1_1-old.md" = none := by
  refine ⟨rfl, rfl, ?_⟩
  decide

/-- C3 (amended): after a forced (or cache-miss) re-scan, the snapshot's
digest map is exactly: one digest per discovered status document that
parsed successfully to a not-yet-seen agent id (duplicates of an
already-seen id and failed parses are omitted), followed by the digest
of the decision-queue document when it exists and of the
ownership/sprint document when it exists.  The map is a function of the
scan input alone — the prior parser state is discarded entirely, never
merged. -/
theorem c3_digest_map_amended (st : ParserState) (fs : FS) (inp : ScanInput)
    (now : Int) :
    (parse_project_state st fs inp now true).1.file_hashes
      = kept_handoff_hashes fs [] inp.handoffs
        ++ (if inp.review_exists then
              [(review_file_path, fs.hashOf review_file_path)] else [])
        ++ (if inp.sprint_exists then
              [(sprint_file_path, fs.hashOf sprint_file_path)] else []) := by
  have hscan := scan_handoffs_hashes fs inp.handoffs [] [] []
    (by intro a; simp)
  have hbody : (parse_project_state st fs inp now true).1 = rescan fs inp now := by
    unfold parse_project_state
    rcases st.cached with _ | cd <;> rfl
  rw [hbody]
  unfold rescan
  simp only [hscan, List.nil_append]
  rcases inp.review_exists with _ | _ <;> rcases inp.sprint_exists with _ | _ <;>
    simp

/-- Lookup after the `files_owned` map-update touches only the updated
key. -/
theorem lookup_map_update (aid : String) (files : List String)
    (l : List (String × AgentInfo)) (k : String) :
    List.lookup k (l.map fun p =>
        if p.1 = aid then (p.1, { p.2 with files_owned := files }) else p)
      = if k = aid then
          (List.lookup k l).map fun a => { a with files_owned := files }
        else List.lookup k l := by
  induction l with
  | nil => simp
  | cons p t ih =>
    obtain ⟨a, v⟩ := p
    by_cases ha : a = aid <;> by_cases hk : k = a
    · subst ha
      subst hk
      simp [List.lookup_cons, ih]
    · subst ha
      have hba : (k == a) = false := beq_eq_false_iff_ne.mpr hk
      simp [List.lookup_cons, hk, hba, ih]
    · subst hk
      simp [List.lookup_cons, ha, ih, beq_iff_eq]
    · have hba : (k == a) = false := beq_eq_false_iff_ne.mpr hk
      simp [List.lookup_cons, ha, hk, hba, ih]

/-- The ownership merge never touches the record of an id absent from
the table. -/
theorem merge_sprint_lookup_other (A : String) :
    ∀ (table : List (String × List String))
      (agents : List (String × AgentInfo)),
      (∀ e ∈ table, e.1 ≠ A) →
      List.lookup A (merge_sprint_agents agents table)
        = List.lookup A agents := by
  intro table
  induction table with
  | nil =>
    intro agents _
    rfl
  | cons e rest ih =>
    obtain ⟨aid, files⟩ := e
    intro agents hne
    have haid : aid ≠ A := hne (aid, files) (List.mem_cons_self _ _)
    have hrest : ∀ e ∈ rest, e.1 ≠ A :=
      fun e he => hne e (List.mem_cons_of_mem _ he)
    unfold merge_sprint_agents
    by_cases hl : (agents.lookup aid).isNone
    · rw [if_pos hl, ih _ hrest, List.lookup_append]
      have hba : (A == aid) = false := beq_eq_false_iff_ne.mpr (Ne.symm haid)
      simp [List.lookup_cons, hba]
    · rw [if_neg hl, ih _ hrest, lookup_map_update,
        if_neg (fun h => haid h.symm)]

/-- An id absent from the agent map but present (once) in the ownership
table ends up mapped to the synthesized idle record. -/
theorem merge_sprint_lookup_new (A : String) (files : List String) :
    ∀ (table : List (String × List String))
      (agents : List (String × AgentInfo)),
      (table.map Prod.fst).Nodup → (A, files) ∈ table →
      List.lookup A agents = none →
      List.lookup A (merge_sprint_agents agents table)
        = some { agent_id := A, status := "idle",
                 current_task := "No recent activity",
                 files_owned := files } := by
  intro table
  induction table with
  | nil =>
    intro agents _ hmem _
    cases hmem
  | cons e rest ih =>
    obtain ⟨aid, fls⟩ := e
    intro agents hnd hmem hnone
    rw [List.map_cons, List.nodup_cons] at hnd
    obtain ⟨hnotin, hndrest⟩ := hnd
    rcases List.mem_cons.mp hmem with heq | hrest
    · cases heq
      unfold merge_sprint_agents
      rw [if_pos (by simp [hnone])]
      rw [merge_sprint_lookup_other A rest _
        (fun e he hEA =>
          hnotin (by rw [← hEA]; exact List.mem_map.mpr ⟨e, he, rfl⟩))]
      rw [List.lookup_append, hnone]
      simp [List.lookup_cons]
    · have hA_in : A ∈ rest.map Prod.fst := List.mem_map_of_mem Prod.fst hrest
      have haidA : aid ≠ A := fun h => hnotin (h ▸ hA_in)
      unfold merge_sprint_agents
      by_cases hl : (agents.lookup aid).isNone
      · rw [if_pos hl]
        apply ih _ hndrest hrest
        rw [List.lookup_append, hnone]
        simp [List.lookup_cons, beq_eq_false_iff_ne.mpr (Ne.symm haidA)]
      · rw [if_neg hl]
        apply ih _ hndrest hrest
        rw [lookup_map_update, if_neg (fun h => haidA h.symm), hnone]

/-- An id present both in the agent map and (once) in the ownership
table keeps its record except for `files_owned`, which is overwritten
from the table. -/
theorem merge_sprint_lookup_upd (A : String) (files : List String) :
    ∀ (table : List (String × List String))
      (agents : List (String × AgentInfo)) (a : AgentInfo),
      (table.map Prod.fst).Nodup → (A, files) ∈ table →
      List.lookup A agents = some a →
      List.lookup A (merge_sprint_agents agents table)
        = some { a with files_owned := files } := by
  intro table
  induction table with
  | nil =>
    intro agents a _ hmem _
    cases hmem
  | cons e rest ih =>
    obtain ⟨aid, fls⟩ := e
    intro agents a hnd hmem hsome
    rw [List.map_cons, List.nodup_cons] at hnd
    obtain ⟨hnotin, hndrest⟩ := hnd
    rcases List.mem_cons.mp hmem with heq | hrest
    · cases heq
      unfold merge_sprint_agents
      rw [if_neg (by simp [hsome])]
      rw [merge_sprint_lookup_other A rest _
        (fun e he hEA =>
          hnotin (by rw [← hEA]; exact List.mem_map.mpr ⟨e, he, rfl⟩))]
      rw [lookup_map_update, if_pos rfl, hsome]
      rfl
    · have hA_in : A ∈ rest.map Prod.fst := List.mem_map_of_mem Prod.fst hrest
      have haidA : aid ≠ A := fun h => hnotin (h ▸ hA_in)
      unfold merge_sprint_agents
      by_cases hl : (agents.lookup aid).isNone
      · rw [if_pos hl]
        apply ih _ _ hndrest hrest
        rw [List.lookup_append, hsome]
        rfl
      · rw [if_neg hl]
        apply ih _ _ hndrest hrest
        rw [lookup_map_update, if_neg (fun h => haidA h.symm), hsome]

/-- An agent id no discovered document parses to never enters the
handoff loop's agent map. -/
theorem scan_handoffs_lookup_absent (fs : FS) (A : String)
    (l : List Handoff) :
    ∀ (agents : List (String × AgentInfo)) (hashes : List (String × String)),
      List.lookup A agents = none →
      (∀ h ∈ l, ∀ ai, h.parsed = some ai → ai.agent_id ≠ A) →
      List.lookup A (scan_handoffs fs agents hashes l).1 = none := by
  induction l with
  | nil =>
    intro agents hashes hnone _
    exact hnone
  | cons h rest ih
  =>
    intro agents hashes hnone hno
    have hrest : ∀ h2 ∈ rest, ∀ ai, h2.parsed = some ai → ai.agent_id ≠ A :=
      fun h2 h2m => hno h2 (List.mem_cons_of_mem _ h2m)
    rcases hp : h.parsed with _ | ai
    · simp only [scan_handoffs, hp]
      exact ih _ _ hnone hrest
    · have hid : ai.agent_id ≠ A := hno h (List.mem_cons_self _ _) ai hp
      simp only [scan_handoffs, hp]
      by_cases hl : (agents.lookup ai.agent_id).isNone
      · rw [if_pos hl]
        apply ih _ _ _ hrest
        rw [List.lookup_append, hnone]
        simp [List.lookup_cons, beq_eq_false_iff_ne.mpr (Ne.symm hid)]
      · rw [if_neg hl]
        exact ih _ _ hnone hrest

/-- C5: for an ownership table (with distinct ids) containing the entry
`(A, files)`, merged during a re-scan: if no discovered status document
parses to agent id `A`, the resulting agent map holds for `A` the
synthesized record with status `"idle"`, task `"No recent activity"`
and `files_owned` from the table; if the handoff loop produced a record
`a` for `A`, the resulting map holds `a` with only `files_owned`
overwritten from the table and every other field unchanged. -/
theorem c5_ownership_merge (fs : FS) (inp : ScanInput) (now : Int)
    (A : String) (files : List String) (table : List (String × List String))
    (hs : inp.sprint_exists = true)
    (ht : inp.sprint_agent_files = some table)
    (hnd : (table.map Prod.fst).Nodup)
    (hmem : (A, files) ∈ table) :
    ((∀ h ∈ inp.handoffs, ∀ ai, h.parsed = some ai → ai.agent_id ≠ A) →
      List.lookup A (rescan fs inp now).agents
        = some { agent_id := A, status := "idle",
                 current_task := "No recent activity",
                 files_owned := files }) ∧
    (∀ a : AgentInfo,
      List.lookup A (scan_handoffs fs [] [] inp.handoffs).1 = some a →
      List.lookup A (rescan fs inp now).agents
        = some { a with files_owned := files }) := by
  have hagents : (rescan fs inp now).agents
      = merge_sprint_agents (scan_handoffs fs [] [] inp.handoffs).1 table := by
    unfold rescan
    simp [hs, ht]
  constructor
  · intro hno
    rw [hagents]
    exact merge_sprint_lookup_new A files table _ hnd hmem
      (scan_handoffs_lookup_absent fs A inp.handoffs [] [] rfl hno)
  · intro a ha
    rw [hagents]
    exact merge_sprint_lookup_upd A files table _ a hnd hmem ha

/-- C5 witness: a table entry for `agent-3`, which no handoff document
parses to, synthesizes the idle record with the table's file list. -/
theorem c5_ownership_witness :
    List.lookup "agent-3"
      (rescan fsC
        (ScanInput.mk [Handoff.mk "handoff-1_1.md" (some agA)] false []
          true (some [("agent-3", ["f1", "f2"])])) 0).agents
      = some { agent_id := "agent-3", status := "idle",
               current_task := "No recent activity",
               files_owned := ["f1", "f2"] } :=
  (c5_ownership_merge fsC
    (ScanInput.mk [Handoff.mk "handoff-1_1.md" (some agA)] false []
      true (some [("agent-3", ["f1", "f2"])])) 0
    "agent-3" ["f1", "f2"] [("agent-3", ["f1", "f2"])]
    rfl rfl (by simp) (by simp)).1
    (by
      intro h hm ai hp
      simp only [List.mem_singleton] at hm
      subst hm
      simp only [agA] at hp
      cases hp
      decide)
